import Mathlib

set_option maxRecDepth 16384

set_option linter.unnecessarySeqFocus false

/-!
Shallow embedding of the swap-address notification bot (`src/main.js`).

The program keeps an outbound Telegram send queue with rate limiting and
backoff (`enqueueMessage` / `processSendQueue`), watches an address file and
diffs it against known/processed address sets (`onAddressesFileChange`), and
supports removing an address (`/remove` command and the inline-button
callback, which perform the same update).

Time is modelled in milliseconds as `Nat`.  `await delay(ms)` and
`setTimeout` are modelled as waiting exactly the requested duration; the send
primitive `bot.sendMessage` is modelled by an oracle that supplies, for each
attempt, its outcome and the duration of the network round trip.  JavaScript
`Set`s are modelled as duplicate-free lists in insertion order, built the way
`new Set(iterable)` builds them (first occurrence kept).
-/

namespace SwapNotify

/-- Rendering options passed to `bot.sendMessage` (`{ parse_mode: 'Markdown' }`). -/
structure SendOptions where
  parseMode : Option String := none
deriving DecidableEq, Repr

/-- One queued outbound message: `{ chatId, text, options }` as pushed by
`enqueueMessage` (src/main.js line 31). -/
structure Msg where
  chatId : String
  text : String
  options : SendOptions
deriving DecidableEq, Repr

/-- Outcome of one `bot.sendMessage` attempt: success, a 429 rate-limit error
carrying `retry_after` seconds (src/main.js lines 51-53), or any other error
with its `err.message`. -/
inductive SendResult where
  | success
  | rateLimited (retryAfterSec : Nat)
  | otherError (errMsg : String)
deriving DecidableEq, Repr

/-- `SEND_INTERVAL_MS = 1100` (src/main.js line 25). -/
def SEND_INTERVAL_MS : Nat := 1100

/-- The module-level mutable state touched by the send queue: `sendQueue`,
`backoffUntil`, `isSending` (src/main.js lines 26-28), the current clock
(`Date.now()`), and the `console.error` log. -/
structure LoopState where
  sendQueue : List Msg
  backoffUntil : Nat
  isSending : Bool
  now : Nat
  log : List String
deriving DecidableEq, Repr

/-- The time at which the next send attempt is issued from state `s`: the
loop reads `now`, and if `now < backoffUntil` it waits until `backoffUntil`
before shifting the next item (src/main.js lines 40-44). -/
def attemptStart (s : LoopState) : Nat :=
  max s.now s.backoffUntil

/-- One iteration of the `while (sendQueue.length > 0)` body of
`processSendQueue` (src/main.js lines 39-64): wait out the backoff window,
shift the front item, attempt the send (taking `dtSend` ms and producing
`res`), then either finish with the `SEND_INTERVAL_MS` delay (success or
non-429 error) or, on a 429, set `backoffUntil = Date.now() + Math.max(1000,
retryAfterSec * 1000)`, unshift the item back to the front and `continue`
without the inter-send delay. -/
def loopIter (s : LoopState) (res : SendResult) (dtSend : Nat) : LoopState :=
  match s.sendQueue with
  | [] => s
  | item :: rest =>
    let nowAfter := attemptStart s + dtSend
    match res with
    | .success =>
        { s with sendQueue := rest, now := nowAfter + SEND_INTERVAL_MS }
    | .rateLimited r =>
        { s with sendQueue := item :: rest,
                 backoffUntil := nowAfter + max 1000 (r * 1000),
                 now := nowAfter,
                 log := s.log ++
                   ["Rate limited by Telegram. Backing off for " ++ toString r ++ "s."] }
    | .otherError e =>
        { s with sendQueue := rest,
                 now := nowAfter + SEND_INTERVAL_MS,
                 log := s.log ++ ["Error sending message: " ++ e] }

/-- One send attempt as observed at the delivery primitive: which message was
handed to `bot.sendMessage`, at what time, and with what outcome. -/
structure Attempt where
  msg : Msg
  issueTime : Nat
  result : SendResult
deriving DecidableEq, Repr

/-- A default `Attempt`, used only as the out-of-range placeholder of
`List.getD` in trace statements. -/
def dAttempt : Attempt :=
  { msg := { chatId := "", text := "", options := {} }, issueTime := 0,
    result := .success }

/-- Run the dispatch loop of `processSendQueue`, one oracle entry
`(result, duration)` per send attempt, until the queue empties or the oracle
is exhausted; returns the final state and the trace of attempts issued to the
delivery primitive. -/
def runLoop : LoopState → List (SendResult × Nat) → LoopState × List Attempt
  | s, [] => (s, [])
  | s, (res, dt) :: rest =>
    match s.sendQueue with
    | [] => (s, [])
    | item :: _ =>
      let p := runLoop (loopIter s res dt) rest
      (p.1, { msg := item, issueTime := attemptStart s, result := res } :: p.2)

/-- `processSendQueue` (src/main.js lines 35-68): a no-op when `isSending` is
already set; otherwise sets `isSending`, runs the dispatch loop, and clears
`isSending` in the `finally` block. -/
def processSendQueue (s : LoopState) (oracle : List (SendResult × Nat)) :
    LoopState × List Attempt :=
  if s.isSending then (s, [])
  else
    let p := runLoop { s with isSending := true } oracle
    ({ p.1 with isSending := false }, p.2)

/-- The pure queue effect of `enqueueMessage` (src/main.js line 31):
`sendQueue.push({ chatId, text, options })`. -/
def enqueuePush (chatId text : String) (options : SendOptions)
    (s : LoopState) : LoopState :=
  { s with sendQueue := s.sendQueue ++ [{ chatId := chatId, text := text,
                                          options := options }] }

/-- `enqueueMessage` (src/main.js lines 30-33): push the message to the back
of the queue, then invoke `processSendQueue`. -/
def enqueueMessage (chatId text : String) (options : SendOptions)
    (s : LoopState) (oracle : List (SendResult × Nat)) :
    LoopState × List Attempt :=
  processSendQueue (enqueuePush chatId text options s) oracle

/-- `Set.add` semantics of a JavaScript `Set` kept as an insertion-order
list: append the element only if it is not already present. -/
def jsAdd (acc : List String) (a : String) : List String :=
  if a ∈ acc then acc else acc ++ [a]

/-- `new Set(iterable)` semantics: insert each element in order, keeping the
first occurrence.  Spreading the set (`[...set]`) yields this list. -/
def jsSetOfList (l : List String) : List String :=
  l.foldl jsAdd []

/-- The bot's mutable monitoring state: the parsed contents of the address
file (what `readAddresses` returns), `knownAddresses`, `processedAddresses`
(src/main.js lines 96-98) and the send queue contents produced so far. -/
structure BotState where
  fileAddresses : List String
  knownAddresses : List String
  processedAddresses : List String
  sendQueue : List Msg
deriving DecidableEq, Repr

/-- `LARGE_BATCH_THRESHOLD = 50` (src/main.js line 167). -/
def LARGE_BATCH_THRESHOLD : Nat := 50

/-- The Markdown rendering options `{ parse_mode: 'Markdown' }`. -/
def mdOptions : SendOptions := { parseMode := some "Markdown" }

/-- The diff computed on a file change (src/main.js line 162):
`[...currentAddresses].filter(x => !knownAddresses.has(x) &&
!processedAddresses.has(x))`, where `currentAddresses = new Set(current)`. -/
def newAddressesOf (st : BotState) (current : List String) : List String :=
  (jsSetOfList current).filter
    (fun x => !(st.knownAddresses.contains x) &&
              !(st.processedAddresses.contains x))

/-- The summary text built for a large batch (src/main.js lines 169-171). -/
def summaryText (newAddresses : List String) : String :=
  let preview := String.intercalate "\n"
    ((newAddresses.take 20).map (fun a => "- " ++ a))
  let remainder := newAddresses.length - min 20 newAddresses.length
  "🆕 Detected " ++ toString newAddresses.length ++
    " new wallet addresses.\n\nFirst " ++
    toString (min 20 newAddresses.length) ++ ":\n\n`\n" ++ preview ++
    "\n`\n" ++
    (if remainder > 0 then "\n…and " ++ toString remainder ++ " more." else "")

/-- The per-address text for a small batch (src/main.js line 176). -/
def individualText (addr : String) : String :=
  "🆕 New wallet address added:\n`" ++ addr ++ "`"

/-- The summary `PendingMessage` enqueued for a large batch
(src/main.js line 172). -/
def summaryMessage (chatId : String) (newAddresses : List String) : Msg :=
  { chatId := chatId, text := summaryText newAddresses, options := mdOptions }

/-- The individual `PendingMessage` enqueued per new address
(src/main.js line 177). -/
def individualMessage (chatId : String) (addr : String) : Msg :=
  { chatId := chatId, text := individualText addr, options := mdOptions }

/-- The messages enqueued for a batch of new addresses (src/main.js lines
164-180): one summary when `newAddresses.length >= LARGE_BATCH_THRESHOLD`,
otherwise one message per address (nothing when the batch is empty, which the
per-address branch already yields). -/
def messagesFor (chatId : String) (newAddresses : List String) : List Msg :=
  if LARGE_BATCH_THRESHOLD ≤ newAddresses.length then
    [summaryMessage chatId newAddresses]
  else
    newAddresses.map (individualMessage chatId)

/-- `onAddressesFileChange` (src/main.js lines 155-195) given the freshly
read file contents `current`: compute the new addresses, enqueue the batch's
messages, replace `knownAddresses` by the current set, and add every new
address to `processedAddresses`. -/
def onAddressesFileChange (chatId : String) (st : BotState)
    (current : List String) : BotState :=
  let currentSet := jsSetOfList current
  let newAddresses := newAddressesOf st current
  { st with
    sendQueue := st.sendQueue ++ messagesFor chatId newAddresses,
    knownAddresses := currentSet,
    processedAddresses := newAddresses.foldl jsAdd st.processedAddresses }

/-- The reply the remover sees: success (with the new monitored count) or the
not-found report. -/
inductive RemoveResult where
  | removed (remaining : Nat)
  | notFound
deriving DecidableEq, Repr

/-- The `/remove <address>` handler (src/main.js lines 206-234), which the
inline-button `callback_query` handler mirrors: read the addresses, and if
the address is present, filter it out, rewrite the file, and rebuild
`knownAddresses` from the new list; otherwise leave everything unchanged and
report not-found. -/
def removeAddress (addr : String) (st : BotState) : BotState × RemoveResult :=
  let addresses := st.fileAddresses
  if addr ∈ addresses then
    let addresses2 := addresses.filter (fun a => a ≠ addr)
    ({ st with fileAddresses := addresses2,
               knownAddresses := jsSetOfList addresses2 },
     .removed addresses2.length)
  else
    (st, .notFound)

/-! ### Helper lemmas about the dispatch loop -/

/-- `loopIter` never moves `backoffUntil` backward: on success or a non-429
error the field is untouched, and on a 429 the new value is computed from a
clock that has already waited out the old window. -/
theorem backoffUntil_le_loopIter (s : LoopState) (res : SendResult)
    (dt : Nat) : s.backoffUntil ≤ (loopIter s res dt).backoffUntil := by
  unfold loopIter attemptStart
  cases s.sendQueue <;> cases res <;> simp <;> omega

/-- Every attempt issued by a run of the loop is issued no earlier than the
backoff resume timestamp the run started with. -/
theorem backoffUntil_le_issueTime (oracle : List (SendResult × Nat)) :
    ∀ (s : LoopState), ∀ a ∈ (runLoop s oracle).2,
      s.backoffUntil ≤ a.issueTime := by
  induction oracle with
  | nil => intro s a ha; simp [runLoop] at ha
  | cons p rest ih =>
    intro s a ha
    obtain ⟨res, dt⟩ := p
    cases hq : s.sendQueue with
    | nil => simp [runLoop, hq] at ha
    | cons item q =>
      simp only [runLoop, hq, List.mem_cons] at ha
      rcases ha with rfl | ha
      · exact Nat.le_max_right _ _
      · exact le_trans (backoffUntil_le_loopIter s res dt)
          (ih (loopIter s res dt) a ha)

/-- The first attempt of a run is issued exactly at the run's start time
(`max now backoffUntil`). -/
theorem runLoop_head_issueTime (oracle : List (SendResult × Nat))
    (s : LoopState) (a : Attempt) (as' : List Attempt)
    (h : (runLoop s oracle).2 = a :: as') : a.issueTime = attemptStart s := by
  cases oracle with
  | nil => simp [runLoop] at h
  | cons p rest =>
    obtain ⟨res, dt⟩ := p
    cases hq : s.sendQueue with
    | nil => simp [runLoop, hq] at h
    | cons item q =>
      simp only [runLoop, hq] at h
      exact (congrArg Attempt.issueTime (List.head_eq_of_cons_eq h)).symm

/-- `loopIter` never moves the attempt-start time backward, and after a
successful or abandoned send it moves it forward by at least the send
duration plus `SEND_INTERVAL_MS`. -/
theorem attemptStart_le_loopIter (s : LoopState) (res : SendResult)
    (dt : Nat) : attemptStart s ≤ attemptStart (loopIter s res dt) := by
  unfold loopIter attemptStart
  cases s.sendQueue <;> cases res <;> simp [attemptStart] <;> omega

/-- After a successful send, the next attempt cannot start until the
`SEND_INTERVAL_MS` delay (and the send's own duration) has passed. -/
theorem attemptStart_loopIter_success (s : LoopState) (dt : Nat)
    (hq : s.sendQueue ≠ []) :
    attemptStart s + dt + SEND_INTERVAL_MS ≤
      attemptStart (loopIter s SendResult.success dt) := by
  unfold loopIter
  cases h : s.sendQueue with
  | nil => exact absurd h hq
  | cons item q => simp [attemptStart]

/-- Every attempt of a run is issued no earlier than the run's start time. -/
theorem attemptStart_le_issueTime (oracle : List (SendResult × Nat)) :
    ∀ (s : LoopState), ∀ a ∈ (runLoop s oracle).2,
      attemptStart s ≤ a.issueTime := by
  induction oracle with
  | nil => intro s a ha; simp [runLoop] at ha
  | cons p rest ih =>
    intro s a ha
    obtain ⟨res, dt⟩ := p
    cases hq : s.sendQueue with
    | nil => simp [runLoop, hq] at ha
    | cons item q =>
      simp only [runLoop, hq, List.mem_cons] at ha
      rcases ha with rfl | ha
      · exact le_refl _
      · exact le_trans (attemptStart_le_loopIter s res dt)
          (ih (loopIter s res dt) a ha)

/-! ### Concrete states used by the witnesses -/

/-- A message with a given text, at an arbitrary chat id and no options. -/
def mkMsg (t : String) : Msg :=
  { chatId := "c", text := t, options := {} }

/-- An idle-clock loop state holding the given messages, with the dispatch
loop marked as running. -/
def mkLoopState (msgs : List Msg) : LoopState :=
  { sendQueue := msgs, backoffUntil := 0, isSending := true, now := 0,
    log := [] }

/-! ### Claim theorems -/

/-- C1: when a send fails with a rate-limit error carrying `retry_after = r`
seconds, the loop sets `backoffUntil` to
`max (old backoffUntil) (now + max 1000 (r * 1000))` — the clock at the
failure has already waited out the old window, so the assignment
`backoffUntil = Date.now() + Math.max(1000, retryAfterSec * 1000)` equals
that maximum — and in particular the resume timestamp never moves backward
across a rate-limit event. -/
theorem rateLimit_backoff_max (s : LoopState) (item : Msg) (rest : List Msg)
    (r dt : Nat) (hq : s.sendQueue = item :: rest) :
    (loopIter s (SendResult.rateLimited r) dt).backoffUntil =
      max s.backoffUntil ((attemptStart s + dt) + max 1000 (r * 1000)) ∧
    s.backoffUntil ≤ (loopIter s (SendResult.rateLimited r) dt).backoffUntil := by
  unfold loopIter
  rw [hq]
  simp only
  constructor
  · have h : s.backoffUntil ≤ attemptStart s + dt + max 1000 (r * 1000) := by
      have := Nat.le_max_right s.now s.backoffUntil
      unfold attemptStart; omega
    omega
  · have := Nat.le_max_right s.now s.backoffUntil
    unfold attemptStart; omega

/-- C1 witness. -/
theorem rateLimit_backoff_max_witness :
    (loopIter (mkLoopState [mkMsg "t"])
        (SendResult.rateLimited 3) 2).backoffUntil =
      max (mkLoopState [mkMsg "t"]).backoffUntil
        ((attemptStart (mkLoopState [mkMsg "t"]) + 2) + max 1000 (3 * 1000)) ∧
    (mkLoopState [mkMsg "t"]).backoffUntil ≤
      (loopIter (mkLoopState [mkMsg "t"])
        (SendResult.rateLimited 3) 2).backoffUntil :=
  rateLimit_backoff_max (mkLoopState [mkMsg "t"]) (mkMsg "t") [] 3 2 rfl

/-- C2: if the front item's send fails with a rate-limit error, the item is
unshifted back to the front of the queue, so everything queued behind it is
still behind it, and every later send attempt of the loop is issued no
earlier than the (new) backoff resume timestamp. -/
theorem rateLimit_requeue_front (s : LoopState) (item : Msg)
    (rest : List Msg) (r dt : Nat) (oracle : List (SendResult × Nat))
    (hq : s.sendQueue = item :: rest) :
    (loopIter s (SendResult.rateLimited r) dt).sendQueue = item :: rest ∧
    ∀ a ∈ (runLoop (loopIter s (SendResult.rateLimited r) dt) oracle).2,
      (loopIter s (SendResult.rateLimited r) dt).backoffUntil ≤
        a.issueTime := by
  constructor
  · unfold loopIter; rw [hq]
  · exact backoffUntil_le_issueTime oracle _

/-- C2 witness. -/
theorem rateLimit_requeue_front_witness :
    (loopIter (mkLoopState [mkMsg "A", mkMsg "B"])
        (SendResult.rateLimited 5) 0).sendQueue = [mkMsg "A", mkMsg "B"] ∧
    ∀ a ∈ (runLoop (loopIter (mkLoopState [mkMsg "A", mkMsg "B"])
            (SendResult.rateLimited 5) 0) [(SendResult.success, 0)]).2,
      (loopIter (mkLoopState [mkMsg "A", mkMsg "B"])
          (SendResult.rateLimited 5) 0).backoffUntil ≤ a.issueTime :=
  rateLimit_requeue_front (mkLoopState [mkMsg "A", mkMsg "B"]) (mkMsg "A")
    [mkMsg "B"] 5 0 [(SendResult.success, 0)] rfl

/-- C5: a call to `processSendQueue` while a loop instance is already running
(`isSending = true`) is a no-op that changes nothing and issues no send
attempt; a call that actually runs the loop leaves `isSending` cleared when
it exits. -/
theorem processSendQueue_single_instance (s : LoopState)
    (oracle : List (SendResult × Nat)) :
    (s.isSending = true → processSendQueue s oracle = (s, [])) ∧
    (s.isSending = false →
      (processSendQueue s oracle).1.isSending = false) := by
  constructor
  · intro h; simp [processSendQueue, h]
  · intro h; simp [processSendQueue, h]

/-- C5 witness: a reentrant call is a no-op, and a real run clears the flag. -/
theorem processSendQueue_single_instance_witness :
    processSendQueue (mkLoopState [mkMsg "t"]) [(SendResult.success, 0)] =
      (mkLoopState [mkMsg "t"], []) ∧
    (processSendQueue { mkLoopState [mkMsg "t"] with isSending := false }
        [(SendResult.success, 0)]).1.isSending = false :=
  ⟨(processSendQueue_single_instance (mkLoopState [mkMsg "t"])
      [(SendResult.success, 0)]).1 rfl,
   (processSendQueue_single_instance
      { mkLoopState [mkMsg "t"] with isSending := false }
      [(SendResult.success, 0)]).2 rfl⟩

/-- C4: `enqueueMessage` pushes to the back of `sendQueue`, and when every
send attempt succeeds (and the oracle covers the whole queue) the dispatch
loop hands the queued messages to `bot.sendMessage` in exactly their queue
order, emptying the queue. -/
theorem fifo_delivery (oracle : List (SendResult × Nat)) :
    ∀ (s : LoopState), (∀ p ∈ oracle, p.1 = SendResult.success) →
      s.sendQueue.length ≤ oracle.length →
      ((runLoop s oracle).2.map Attempt.msg = s.sendQueue ∧
       (runLoop s oracle).1.sendQueue = [] ∧
       ∀ c t o, (enqueuePush c t o s).sendQueue =
         s.sendQueue ++ [{ chatId := c, text := t, options := o }]) := by
  induction oracle with
  | nil =>
    intro s _ hlen
    have hq : s.sendQueue = [] := List.length_eq_zero.mp (Nat.le_zero.mp hlen)
    refine ⟨by simp [runLoop, hq], by simp [runLoop, hq], ?_⟩
    intro c t o; simp [enqueuePush]
  | cons p rest ih =>
    intro s hall hlen
    obtain ⟨res, dt⟩ := p
    have hres : res = SendResult.success := hall (res, dt) (List.mem_cons_self _ _)
    subst hres
    cases hq : s.sendQueue with
    | nil =>
      refine ⟨by simp [runLoop, hq], by simp [runLoop, hq], ?_⟩
      intro c t o; simp [enqueuePush, hq]
    | cons m q =>
      have hstep : (loopIter s SendResult.success dt).sendQueue = q := by
        unfold loopIter; rw [hq]
      have hlen' : (loopIter s SendResult.success dt).sendQueue.length ≤
          rest.length := by
        rw [hstep]
        have : (m :: q).length ≤ rest.length + 1 := by
          simpa [hq] using hlen
        simpa using Nat.lt_succ_iff.mp (Nat.lt_of_lt_of_le (Nat.lt_succ_self _) (by simpa using this))
      have ihs := ih (loopIter s SendResult.success dt)
        (fun p hp => hall p (List.mem_cons_of_mem _ hp)) hlen'
      refine ⟨?_, ?_, ?_⟩
      · simp only [runLoop, hq]
        simp only [List.map_cons, ihs.1, hstep, hq]
      · simp only [runLoop, hq]
        exact ihs.2.1
      · intro c t o; simp [enqueuePush, hq]

/-- C4 witness. -/
theorem fifo_delivery_witness :
    (runLoop (mkLoopState [mkMsg "A", mkMsg "B"])
        [(SendResult.success, 0), (SendResult.success, 0)]).2.map
        Attempt.msg = [mkMsg "A", mkMsg "B"] ∧
    (runLoop (mkLoopState [mkMsg "A", mkMsg "B"])
        [(SendResult.success, 0), (SendResult.success, 0)]).1.sendQueue = [] ∧
    ∀ c t o, (enqueuePush c t o (mkLoopState [mkMsg "A", mkMsg "B"])).sendQueue =
      [mkMsg "A", mkMsg "B"] ++ [{ chatId := c, text := t, options := o }] :=
  fifo_delivery [(SendResult.success, 0), (SendResult.success, 0)]
    (mkLoopState [mkMsg "A", mkMsg "B"]) (by decide) (by decide)

/-- C6: in any trace of the dispatch loop, a send attempt issued after a
successful send is issued at least `SEND_INTERVAL_MS` after it, because the
loop waits that interval before shifting the next item. -/
theorem sends_spaced (oracle : List (SendResult × Nat)) :
    ∀ (s : LoopState) (i j : Nat), i < j →
      j < (runLoop s oracle).2.length →
      ((runLoop s oracle).2.getD i dAttempt).result = SendResult.success →
      ((runLoop s oracle).2.getD i dAttempt).issueTime + SEND_INTERVAL_MS ≤
        ((runLoop s oracle).2.getD j dAttempt).issueTime := by
  induction oracle with
  | nil =>
    intro s i j _ hj _
    simp [runLoop] at hj
  | cons p rest ih =>
    intro s i j hij hj hres
    obtain ⟨res, dt⟩ := p
    cases hq : s.sendQueue with
    | nil => rw [runLoop] at hj; simp [hq] at hj
    | cons m q =>
      have htr : (runLoop s ((res, dt) :: rest)).2 =
          { msg := m, issueTime := attemptStart s, result := res } ::
            (runLoop (loopIter s res dt) rest).2 := by
        rw [runLoop]; simp [hq]
      obtain ⟨j', rfl⟩ : ∃ j', j = j' + 1 :=
        ⟨j - 1, by omega⟩
      rw [htr] at hj hres ⊢
      cases i with
      | zero =>
        simp only [List.getD_cons_zero] at hres ⊢
        have hsucc : res = SendResult.success := hres
        subst hsucc
        simp only [List.getD_cons_succ]
        have hj' : j' < (runLoop (loopIter s SendResult.success dt) rest).2.length := by
          simpa using hj
        have hmem :
            (runLoop (loopIter s SendResult.success dt) rest).2.getD j' dAttempt ∈
              (runLoop (loopIter s SendResult.success dt) rest).2 := by
          rw [List.getD_eq_getElem _ _ hj']
          exact List.getElem_mem _
        have h1 := attemptStart_le_issueTime rest
          (loopIter s SendResult.success dt) _ hmem
        have h2 := attemptStart_loopIter_success s dt (by simp [hq])
        omega
      | succ i' =>
        simp only [List.getD_cons_succ] at hres ⊢
        have hj' : j' < (runLoop (loopIter s res dt) rest).2.length := by
          simpa using hj
        exact ih (loopIter s res dt) i' j' (by omega) hj' hres

/-- C6 witness: two successful sends, the second issued 1100 ms after the
first. -/
theorem sends_spaced_witness :
    ((runLoop (mkLoopState [mkMsg "A", mkMsg "B"])
        [(SendResult.success, 0), (SendResult.success, 0)]).2.getD 0
        dAttempt).issueTime + SEND_INTERVAL_MS ≤
      ((runLoop (mkLoopState [mkMsg "A", mkMsg "B"])
        [(SendResult.success, 0), (SendResult.success, 0)]).2.getD 1
        dAttempt).issueTime :=
  sends_spaced [(SendResult.success, 0), (SendResult.success, 0)]
    (mkLoopState [mkMsg "A", mkMsg "B"]) 0 1 (by decide) (by decide)
    (by decide)

/-- C7 counterexample: on a non-rate-limit failure the loop logs only
`'Error sending message:'` followed by `err.message`; the log entry for a
queued message with text `"hello"` does not contain that text anywhere, and
two different messages produce the identical log entry, so the log does not
include the message's identifying content. -/
theorem abandon_log_no_content :
    (loopIter (mkLoopState [mkMsg "hello"])
        (SendResult.otherError "boom") 0).log =
      ["Error sending message: boom"] ∧
    ¬ ((mkMsg "hello").text.data <:+: "Error sending message: boom".data) ∧
    (loopIter (mkLoopState [mkMsg "hello"])
        (SendResult.otherError "boom") 0).log =
      (loopIter (mkLoopState [mkMsg "world"])
        (SendResult.otherError "boom") 0).log ∧
    mkMsg "hello" ≠ mkMsg "world" := by
  refine ⟨rfl, by decide, rfl, by decide⟩

/-- C7 amended: every dequeued item reaches exactly one of three outcomes —
on success it is removed from the queue (delivered); on a rate-limit error it
is reinserted at the front; on any other error it is removed (never
retried) and the error is logged (as `'Error sending message:'` plus the
error's own message, without the queued message's content), the backoff
timestamp is untouched, and the clock advances only by the send duration
plus the normal inter-send interval. -/
theorem dequeue_outcomes (s : LoopState) (item : Msg) (rest : List Msg)
    (res : SendResult) (dt : Nat) (hq : s.sendQueue = item :: rest) :
    (res = SendResult.success →
       (loopIter s res dt).sendQueue = rest) ∧
    (∀ r, res = SendResult.rateLimited r →
       (loopIter s res dt).sendQueue = item :: rest) ∧
    (∀ e, res = SendResult.otherError e →
       (loopIter s res dt).sendQueue = rest ∧
       (loopIter s res dt).log = s.log ++ ["Error sending message: " ++ e] ∧
       (loopIter s res dt).backoffUntil = s.backoffUntil ∧
       (loopIter s res dt).now = attemptStart s + dt + SEND_INTERVAL_MS) := by
  refine ⟨?_, ?_, ?_⟩
  · rintro rfl; unfold loopIter; rw [hq]
  · rintro r rfl; unfold loopIter; rw [hq]
  · rintro e rfl
    unfold loopIter
    rw [hq]
    exact ⟨rfl, rfl, rfl, rfl⟩

/-- C7 witness: a concrete non-rate-limit failure is dropped, logged, leaves
the backoff untouched and advances the clock by the inter-send interval. -/
theorem dequeue_outcomes_witness :
    (loopIter (mkLoopState [mkMsg "A", mkMsg "B"])
        (SendResult.otherError "boom") 7).sendQueue = [mkMsg "B"] ∧
    (loopIter (mkLoopState [mkMsg "A", mkMsg "B"])
        (SendResult.otherError "boom") 7).log =
      (mkLoopState [mkMsg "A", mkMsg "B"]).log ++
        ["Error sending message: " ++ "boom"] ∧
    (loopIter (mkLoopState [mkMsg "A", mkMsg "B"])
        (SendResult.otherError "boom") 7).backoffUntil =
      (mkLoopState [mkMsg "A", mkMsg "B"]).backoffUntil ∧
    (loopIter (mkLoopState [mkMsg "A", mkMsg "B"])
        (SendResult.otherError "boom") 7).now =
      attemptStart (mkLoopState [mkMsg "A", mkMsg "B"]) + 7 +
        SEND_INTERVAL_MS :=
  (dequeue_outcomes (mkLoopState [mkMsg "A", mkMsg "B"]) (mkMsg "A")
      [mkMsg "B"] (SendResult.otherError "boom") 7 rfl).2.2 "boom" rfl

/-! ### Helper lemmas about the JavaScript-set model -/

/-- Membership after a single `Set.add`. -/
theorem mem_jsAdd (acc : List String) (a x : String) :
    x ∈ jsAdd acc a ↔ x ∈ acc ∨ x = a := by
  unfold jsAdd
  split
  · next h => constructor
              · exact fun hx => Or.inl hx
              · rintro (hx | rfl)
                · exact hx
                · exact h
  · simp

/-- Membership in the fold that builds a JavaScript `Set`. -/
theorem mem_foldl_jsAdd (l : List String) :
    ∀ (acc : List String) (x : String),
      x ∈ l.foldl jsAdd acc ↔ x ∈ acc ∨ x ∈ l := by
  induction l with
  | nil => intro acc x; simp
  | cons a l ih =>
    intro acc x
    rw [List.foldl_cons, ih (jsAdd acc a) x, mem_jsAdd]
    simp only [List.mem_cons]
    tauto

/-- `new Set(l)` contains exactly the elements of `l`. -/
theorem mem_jsSetOfList (l : List String) (x : String) :
    x ∈ jsSetOfList l ↔ x ∈ l := by
  unfold jsSetOfList
  rw [mem_foldl_jsAdd]
  simp

/-- C8: an address is in the batch of new addresses computed on a file
change exactly when it is in the freshly read file contents but in neither
`knownAddresses` nor `processedAddresses`; the messages enqueued by the
change handler are precisely those shaped for that batch. -/
theorem newAddresses_diff (chatId : String) (st : BotState)
    (current : List String) :
    (∀ x, x ∈ newAddressesOf st current ↔
       (x ∈ current ∧ x ∉ st.knownAddresses ∧ x ∉ st.processedAddresses)) ∧
    (onAddressesFileChange chatId st current).sendQueue =
      st.sendQueue ++ messagesFor chatId (newAddressesOf st current) := by
  constructor
  · intro x
    unfold newAddressesOf
    rw [List.mem_filter, mem_jsSetOfList]
    simp [List.contains, List.elem_eq_mem]
  · rfl

/-- C3 claim predicate, following the claim's words: when the number of new
addresses strictly exceeds the threshold 50 exactly one summary message is
enqueued, and otherwise one individual message per new address. -/
def claimC3Policy (chatId : String) (st : BotState)
    (current : List String) : Prop :=
  if 50 < (newAddressesOf st current).length then
    (onAddressesFileChange chatId st current).sendQueue =
      st.sendQueue ++ [summaryMessage chatId (newAddressesOf st current)]
  else
    (onAddressesFileChange chatId st current).sendQueue =
      st.sendQueue ++ (newAddressesOf st current).map
        (individualMessage chatId)

/-- The empty bot state. -/
def emptyBotState : BotState :=
  { fileAddresses := [], knownAddresses := [], processedAddresses := [],
    sendQueue := [] }

/-- A batch of `n` distinct addresses. -/
def batchAddrs (n : Nat) : List String :=
  (List.range n).map (fun i => "a" ++ toString i)

/-- C3 counterexample: with exactly 50 new addresses the claim's `otherwise`
branch demands 50 individual messages, but the code's test is
`newAddresses.length >= LARGE_BATCH_THRESHOLD`, so one summary message is
enqueued instead. -/
theorem batch_threshold_boundary :
    (newAddressesOf emptyBotState (batchAddrs 50)).length = 50 ∧
    ¬ claimC3Policy "c" emptyBotState (batchAddrs 50) := by
  constructor
  · decide
  · intro h
    unfold claimC3Policy at h
    rw [if_neg (by decide)] at h
    exact absurd (congrArg List.length h) (by decide)

/-- C3 amended: on a change with `n` new addresses, if `n` reaches or
exceeds the threshold 50 exactly one summary message is enqueued, and if
`n < 50` exactly one individual message per new address is enqueued (so 49
new addresses yield 49 individual messages and 51 yield 1 summary). -/
theorem batch_threshold (chatId : String) (st : BotState)
    (current : List String) :
    (LARGE_BATCH_THRESHOLD ≤ (newAddressesOf st current).length →
       (onAddressesFileChange chatId st current).sendQueue =
         st.sendQueue ++ [summaryMessage chatId (newAddressesOf st current)]) ∧
    ((newAddressesOf st current).length < LARGE_BATCH_THRESHOLD →
       (onAddressesFileChange chatId st current).sendQueue =
         st.sendQueue ++ (newAddressesOf st current).map
           (individualMessage chatId)) := by
  constructor
  · intro h
    simp only [onAddressesFileChange, messagesFor]
    rw [if_pos h]
  · intro h
    simp only [onAddressesFileChange, messagesFor]
    rw [if_neg (Nat.not_le.mpr h)]

/-- C3 witness: 51 new addresses yield exactly the one summary message, and
2 new addresses yield one individual message each. -/
theorem batch_threshold_witness :
    (onAddressesFileChange "c" emptyBotState (batchAddrs 51)).sendQueue =
      emptyBotState.sendQueue ++
        [summaryMessage "c" (newAddressesOf emptyBotState (batchAddrs 51))] ∧
    (onAddressesFileChange "c" emptyBotState (batchAddrs 2)).sendQueue =
      emptyBotState.sendQueue ++
        (newAddressesOf emptyBotState (batchAddrs 2)).map
          (individualMessage "c") :=
  ⟨(batch_threshold "c" emptyBotState (batchAddrs 51)).1 (by decide),
   (batch_threshold "c" emptyBotState (batchAddrs 2)).2 (by decide)⟩

/-- C9: removing an address that is present in the address list rewrites the
file to the same list with exactly that address filtered out (so the file and
the rebuilt known set no longer contain it) and reports success; removing an
absent address changes nothing and reports not-found. -/
theorem removeAddress_spec (addr : String) (st : BotState) :
    (addr ∈ st.fileAddresses →
       (∀ x, x ∈ (removeAddress addr st).1.fileAddresses ↔
          (x ∈ st.fileAddresses ∧ x ≠ addr)) ∧
       addr ∉ (removeAddress addr st).1.fileAddresses ∧
       addr ∉ (removeAddress addr st).1.knownAddresses ∧
       (removeAddress addr st).2 = RemoveResult.removed
         (st.fileAddresses.filter (fun a => a ≠ addr)).length) ∧
    (addr ∉ st.fileAddresses →
       (removeAddress addr st).1 = st ∧
       (removeAddress addr st).2 = RemoveResult.notFound) := by
  constructor
  · intro h
    have hmemf : ∀ x, x ∈ (removeAddress addr st).1.fileAddresses ↔
        (x ∈ st.fileAddresses ∧ x ≠ addr) := by
      intro x
      simp only [removeAddress, if_pos h]
      rw [List.mem_filter]
      simp
    refine ⟨hmemf, ?_, ?_, ?_⟩
    · rw [hmemf]; simp
    · simp only [removeAddress, if_pos h]
      rw [mem_jsSetOfList, List.mem_filter]
      simp
    · simp only [removeAddress, if_pos h]
  · intro h
    simp [removeAddress, if_neg h]

/-- A concrete monitoring state for the removal witnesses: both addresses
are in the file, known, and already notified. -/
def abBotState : BotState :=
  { fileAddresses := ["A", "B"], knownAddresses := ["A", "B"],
    processedAddresses := ["A", "B"], sendQueue := [] }

/-- C9 witness: removing the present address `"A"` excludes it from the file
and the known set; removing the absent `"Z"` leaves the state unchanged and
reports not-found. -/
theorem removeAddress_spec_witness :
    ((∀ x, x ∈ (removeAddress "A" abBotState).1.fileAddresses ↔
        (x ∈ abBotState.fileAddresses ∧ x ≠ "A")) ∧
     "A" ∉ (removeAddress "A" abBotState).1.fileAddresses ∧
     "A" ∉ (removeAddress "A" abBotState).1.knownAddresses ∧
     (removeAddress "A" abBotState).2 = RemoveResult.removed
       (abBotState.fileAddresses.filter (fun a => a ≠ "A")).length) ∧
    ((removeAddress "Z" abBotState).1 = abBotState ∧
     (removeAddress "Z" abBotState).2 = RemoveResult.notFound) :=
  ⟨(removeAddress_spec "A" abBotState).1 (by decide),
   (removeAddress_spec "Z" abBotState).2 (by decide)⟩

/-- C10: removal never touches `processedAddresses`, so an address that was
already notified and is later re-added to the file is filtered out of the
next change's new-address batch and produces no new notification. -/
theorem removeAddress_frame (addr : String) (st : BotState)
    (current : List String) :
    (removeAddress addr st).1.processedAddresses = st.processedAddresses ∧
    (addr ∈ st.processedAddresses →
       addr ∉ newAddressesOf (removeAddress addr st).1 current) := by
  have hframe : (removeAddress addr st).1.processedAddresses =
      st.processedAddresses := by
    simp only [removeAddress]
    split <;> rfl
  refine ⟨hframe, ?_⟩
  intro hmem hnew
  have := ((newAddresses_diff "c" (removeAddress addr st).1 current).1
    addr).mp hnew
  rw [hframe] at this
  exact this.2.2 hmem

/-- C10 witness: after removing the already-notified address `"A"`, a file
change that re-adds it produces no new-address notification for it. -/
theorem removeAddress_frame_witness :
    (removeAddress "A" abBotState).1.processedAddresses =
      abBotState.processedAddresses ∧
    "A" ∉ newAddressesOf (removeAddress "A" abBotState).1 ["A", "B", "C"] :=
  ⟨(removeAddress_frame "A" abBotState ["A", "B", "C"]).1,
   (removeAddress_frame "A" abBotState ["A", "B", "C"]).2 (by decide)⟩

end SwapNotify
